import Mathlib

/-!
Verification of the document-retrieval pipeline: data model, context
extraction (`delta_context_extractor`), RRF ranking (`rrf_ranker`), the
fan-out search coordinator (`utils.search_multi_index`), and the
post-retrieval formatting (`post_retriver.AsyncPostRetriever`).

The embedding follows the Python source.  Machine integers are `Nat`,
float scores and ranking weights are `ℚ` (exact arithmetic; the Python
floats agree with the exact values on all inputs exercised here, and
`int(len(s)/3.3*1.1)` equals `len(s)/3` in integer arithmetic).
-/

/-- Metadata carried by one stored chunk (`ChunkMetadata` in
`models.py`).  The fields `total_chunks`, `all_md_pages`, `created_at`
and `updated_at` are omitted: no code verified here reads them
(`all_md_pages` only appears inside the backend fetch response, which is
abstracted as the fetch oracle). -/
structure ChunkMetadata where
  pdf_name : String := ""
  page_number : Option Nat := none
  chunk_number : Option Nat := none
  gcs_uri : Option String := none
deriving DecidableEq

/-- One scored retrieval hit (`SearchResult` in `models.py`); the float
`score` is embedded as `ℚ`. -/
structure SearchResult where
  content : String
  metadata : ChunkMetadata := {}
  score : ℚ := 0
  source_index : String := ""
  search_type : String := ""
  vector_field : Option String := none
deriving DecidableEq

/-- Aggregation of all hits of one document (`DocumentCandidate` in
`models.py`). -/
structure DocumentCandidate where
  document_id : String
  chunks : List SearchResult := []
  full_content : Option String := none
  pdf_gcs_uri : Option String := none
deriving DecidableEq

/-- The `chunk_count` property of `models.py`:
`len(self.chunks)`. -/
def DocumentCandidate.chunk_count (c : DocumentCandidate) : Nat :=
  c.chunks.length

/-- The pipeline output type (`DocumentContext` in `models.py`), whose
`pdf_gcs_uri` defaults to `None` — `_empty_context` constructs it
without that field. -/
structure DocumentContext where
  document_id : String
  context : String
  source_index : String
  pdf_gcs_uri : Option String := none
deriving DecidableEq

/-- Python truthiness of an optional string: `None` and `""` are falsy. -/
def truthyOptStr : Option String → Bool
  | none => false
  | some s => !(s == "")

/-- Python truthiness of an optional natural (`page_number`): `None`
and `0` are falsy. -/
def truthyOptNat : Option Nat → Bool
  | none => false
  | some n => !(n == 0)

/-- `str.join`: `sep.join(l)`. -/
def pyJoin (sep : String) : List String → String
  | [] => ""
  | [x] => x
  | x :: y :: xs => x ++ sep ++ pyJoin sep (y :: xs)

/-- `str.strip()`: drop whitespace from both ends. -/
def pyStrip (s : String) : String :=
  String.mk (((s.data.dropWhile Char.isWhitespace).reverse.dropWhile
    Char.isWhitespace).reverse)

/-- `str.lower()` (ASCII). -/
def pyLower (s : String) : String :=
  String.mk (s.data.map Char.toLower)

/-- Helper for `str.split()`: accumulate maximal runs of non-whitespace. -/
def pySplitAux : List Char → List Char → List String
  | [], acc => if acc.isEmpty then [] else [String.mk acc.reverse]
  | c :: cs, acc =>
    if c.isWhitespace then
      if acc.isEmpty then pySplitAux cs []
      else String.mk acc.reverse :: pySplitAux cs []
    else pySplitAux cs (c :: acc)

/-- `str.split()` with no argument: whitespace runs, no empty items. -/
def pySplit (s : String) : List String :=
  pySplitAux s.data []

/-- First index at which `pat` occurs in `hay` as a plain substring. -/
def findSub : List Char → List Char → Option Nat
  | hay, pat =>
    if pat.isPrefixOf hay then some 0
    else
      match hay with
      | [] => none
      | _ :: t => (findSub t pat).map (· + 1)

/-- `str.find(sub, start)`: absolute index of the first occurrence at or
after `start`, `none` for Python's `-1`. -/
def pyFind (s sub : String) (start : Nat) : Option Nat :=
  (findSub (s.data.drop start) sub.data).map (· + start)

/-- Python slice `s[a:b]`. -/
def pySlice (s : String) (a b : Nat) : String :=
  String.mk ((s.data.take b).drop a)

/-- Python slice `s[a:]`. -/
def pySliceFrom (s : String) (a : Nat) : String :=
  String.mk (s.data.drop a)

/-- The token estimate `int(len(text) / 3.3 * 1.1)` of
`delta_context_extractor.estimate_tokens`; in exact arithmetic this is
`⌊len/3⌋`, which coincides with the Python float computation. -/
def estimate_tokens (text : String) : Nat :=
  text.length / 3

/-- Decimal value of a digit run (Python `int` on a digit string). -/
def digitsToNat (ds : List Char) : Nat :=
  ds.foldl (fun a c => a * 10 + (c.toNat - 48)) 0

/-- `re.findall(r'page_(\d+)', content)` with each capture converted by
`int`: left-to-right non-overlapping scan; a match is `page_` followed by
a maximal non-empty digit run, and scanning resumes after the digits. -/
def pageFindallAux : List Char → List Nat
  | 'p' :: 'a' :: 'g' :: 'e' :: '_' :: c :: rest =>
    if c.isDigit then
      digitsToNat (c :: rest.takeWhile Char.isDigit) ::
        pageFindallAux (rest.dropWhile Char.isDigit)
    else
      pageFindallAux ('a' :: 'g' :: 'e' :: '_' :: c :: rest)
  | _ :: rest => pageFindallAux rest
  | [] => []
termination_by l => l.length
decreasing_by
  · have := (@List.dropWhile_sublist Char rest Char.isDigit).length_le
    simp_all
    omega
  · simp
  · simp_all

def pageFindall (s : String) : List Nat :=
  pageFindallAux s.data

/-- Insert into an ascending duplicate-free list of naturals. -/
def insertSortedNat (n : Nat) : List Nat → List Nat
  | [] => [n]
  | m :: ms =>
    if n < m then n :: m :: ms
    else if n = m then m :: ms
    else m :: insertSortedNat n ms

/-- `sorted(set(l))` for naturals. -/
def sortedSet (l : List Nat) : List Nat :=
  l.foldr insertSortedNat []

/-- Python `min` over a list (callers guarantee non-emptiness). -/
def listMin : List Nat → Nat
  | [] => 0
  | x :: xs => xs.foldl Nat.min x

/-- Python `max` over a list (callers guarantee non-emptiness). -/
def listMax : List Nat → Nat
  | [] => 0
  | x :: xs => xs.foldl Nat.max x

/-- Strict lexicographic order on pairs, as Python compares tuples. -/
def pairLt (a b : Nat × Nat) : Bool :=
  a.1 < b.1 || (a.1 == b.1 && a.2 < b.2)

/-- Stable ascending insertion for `sorted` on pairs. -/
def insertPair (p : Nat × Nat) : List (Nat × Nat) → List (Nat × Nat)
  | [] => [p]
  | q :: qs => if pairLt p q then p :: q :: qs else q :: insertPair p qs

/-- Python `sorted` on a list of pairs. -/
def sortPairs (l : List (Nat × Nat)) : List (Nat × Nat) :=
  l.foldr insertPair []

/-- The merge loop of `_merge_ranges`: `cur` is the last merged range. -/
def mergeAux : Nat × Nat → List (Nat × Nat) → List (Nat × Nat)
  | cur, [] => [cur]
  | cur, (s, e) :: rest =>
    if s ≤ cur.2 + 1 then mergeAux (cur.1, Nat.max cur.2 e) rest
    else cur :: mergeAux (s, e) rest

/-- `_merge_ranges`: sort, then merge overlapping or adjacent ranges.
(The Python code indexes `sorted_ranges[0]`; its only caller passes a
non-empty list, so the empty case is unreachable.) -/
def mergeRanges (ranges : List (Nat × Nat)) : List (Nat × Nat) :=
  match sortPairs ranges with
  | [] => []
  | r :: rs => mergeAux r rs

/-- `_extract_pages`. -/
def extractPages (content : String) (start stop last_page : Nat) : String :=
  let start_idx := (pyFind content ("page_" ++ toString start) 0).getD 0
  if stop ≥ last_page then pyStrip (pySliceFrom content start_idx)
  else
    let end_idx := pyFind content ("page_" ++ toString (stop + 1)) start_idx
    pyStrip (pySlice content start_idx (end_idx.getD content.length))

/-- `_build_context`: pad each hit page into a range clamped to the
available markers, merge, extract each merged range, join with
`"\n...\n"`.  (Python's `page - padding` can be negative, but is then
clamped by `max(min(available), ·)`; `Nat` truncation clamps to `0 ≤
min(available)` first, giving the same value.) -/
def buildContext (content : String) (page_nums available : List Nat) (padding : Nat) : String :=
  let lo := listMin available
  let hi := listMax available
  let ranges := page_nums.map (fun p => (Nat.max lo (p - padding), Nat.min hi (p + padding)))
  let merged := mergeRanges ranges
  pyJoin "\n...\n" (merged.map (fun r => extractPages content r.1 r.2 hi))

/-- Third component of the extractor's result triple: an `int` padding or
a `str` marker, as in the Python `int | str` union. -/
abbrev PadInfo := Sum Nat String

/-- `_empty_context`. -/
def emptyContext (candidate : DocumentCandidate) : DocumentContext :=
  { document_id := candidate.document_id
    context := ""
    source_index := match candidate.chunks with
      | [] => ""
      | c :: _ => c.source_index }

/-- The greedy accumulation loop of `_extract_raw_chunks`: append a
chunk's content whenever its token estimate still fits the budget; a
non-fitting chunk is skipped, not a stopping point. -/
def greedyChunks (budget : Nat) : List SearchResult → Nat → List String × Nat
  | [], tokens => ([], tokens)
  | c :: cs, tokens =>
    let ct := estimate_tokens c.content
    if tokens + ct ≤ budget then
      let r := greedyChunks budget cs (tokens + ct)
      (c.content :: r.1, r.2)
    else greedyChunks budget cs tokens

/-- The ratio loop of `_extract_raw_chunks`, one chunk limit per ratio. -/
def rawChunksLoop (candidate : DocumentCandidate) (source_index : String) (budget : Nat) :
    List Nat → DocumentContext × Nat × PadInfo
  | [] => (emptyContext candidate, 0, Sum.inr "-0")
  | limit :: rest =>
    let r := greedyChunks budget (candidate.chunks.take limit) 0
    if r.1.isEmpty then rawChunksLoop candidate source_index budget rest
    else
      ({ document_id := candidate.document_id
         context := pyJoin "\n\n" r.1
         source_index := source_index
         pdf_gcs_uri := candidate.pdf_gcs_uri },
       r.2, Sum.inr ("-" ++ toString r.1.length))

/-- The chunk limits `max(1, int(total_chunks * ratio))` for ratios
`1.0, 0.9, …, 0.1`, in exact arithmetic `⌊total·k/10⌋`.  (The Python
float product can land one below the exact value for some totals; the
loop's observable result is unaffected, because it is decided at the
first limit, which both computations set to `total`.) -/
def ratioLimits (total : Nat) : List Nat :=
  [10, 9, 8, 7, 6, 5, 4, 3, 2, 1].map (fun k => Nat.max 1 (total * k / 10))

/-- `_extract_raw_chunks`. -/
def extractRawChunks (candidate : DocumentCandidate) (source_index : String) (budget : Nat) :
    DocumentContext × Nat × PadInfo :=
  rawChunksLoop candidate source_index budget (ratioLimits candidate.chunks.length)

/-- `_full_or_empty` (called only when `full_content` is truthy). -/
def fullOrEmpty (candidate : DocumentCandidate) (source_index : String) (budget : Nat) :
    DocumentContext × Nat × PadInfo :=
  let fc := candidate.full_content.getD ""
  let tokens := estimate_tokens fc
  if tokens ≤ budget then
    ({ document_id := candidate.document_id
       context := fc
       source_index := source_index
       pdf_gcs_uri := candidate.pdf_gcs_uri }, tokens, Sum.inl 0)
  else extractRawChunks candidate source_index budget

/-- The padding loop of `_extract_with_budget`: accept the first padding
whose rendered context has a token estimate in `(0, budget]`. -/
def tryPaddings (candidate : DocumentCandidate) (source_index : String) (budget : Nat)
    (page_nums available : List Nat) :
    List Nat → Option (DocumentContext × Nat × PadInfo)
  | [] => none
  | padding :: rest =>
    let context := buildContext (candidate.full_content.getD "") page_nums available padding
    let tokens := estimate_tokens context
    if 0 < tokens && tokens ≤ budget then
      some ({ document_id := candidate.document_id
              context := context
              source_index := source_index
              pdf_gcs_uri := candidate.pdf_gcs_uri }, tokens, Sum.inl padding)
    else tryPaddings candidate source_index budget page_nums available rest

/-- The padding tiers `[initial_padding, 15, 10, 5, 2, 1, 0]`. -/
def paddingTiers (initial_padding : Nat) : List Nat :=
  [initial_padding, 15, 10, 5, 2, 1, 0]

/-- `_extract_with_budget`. -/
def extractWithBudget (candidate : DocumentCandidate) (budget initial_padding : Nat) :
    DocumentContext × Nat × PadInfo :=
  match candidate.chunks with
  | [] => (emptyContext candidate, 0, Sum.inl 0)
  | c0 :: _ =>
    if !truthyOptStr candidate.full_content then (emptyContext candidate, 0, Sum.inl 0)
    else if (candidate.chunks.filterMap
        (fun c => if truthyOptNat c.metadata.page_number then c.metadata.page_number
                  else none)).isEmpty then
      fullOrEmpty candidate c0.source_index budget
    else if (sortedSet (pageFindall (candidate.full_content.getD ""))).isEmpty then
      fullOrEmpty candidate c0.source_index budget
    else
      match tryPaddings candidate c0.source_index budget
          (candidate.chunks.filterMap
            (fun c => if truthyOptNat c.metadata.page_number then c.metadata.page_number
                      else none))
          (sortedSet (pageFindall (candidate.full_content.getD "")))
          (paddingTiers initial_padding) with
      | some r => r
      | none => extractRawChunks candidate c0.source_index budget

/-- Total weight `sum(c.chunk_count for c in candidates)`. -/
def totalWeight (candidates : List DocumentCandidate) : Nat :=
  (candidates.map DocumentCandidate.chunk_count).sum

/-- `extract_context_delta`.  The per-candidate budget is
`int(weight / total_weight * max_tokens)`; with a total weight of `0`
and a non-empty candidate list, the Python division raises
`ZeroDivisionError` on the first loop iteration, modelled as `.error`. -/
def extract_context_delta (candidates : List DocumentCandidate)
    (max_tokens initial_padding : Nat) :
    Except String (List DocumentContext) :=
  if totalWeight candidates = 0 then
    if candidates.isEmpty then Except.ok []
    else Except.error "ZeroDivisionError: division by zero"
  else
    Except.ok (candidates.map (fun c =>
      (extractWithBudget c
        (c.chunk_count * max_tokens / totalWeight candidates) initial_padding).1))

/-- The optional `\n?` at the end of a `page_(\d+)\n?` match. -/
def dropOptNl : List Char → List Char
  | '\n' :: t => t
  | t => t

/-- One pass of `re.finditer(r'page_(\d+)\n?', content)` combined with the
slicing done by `format_page_tags`: returns the text before the first
match and, per match, the capture digits and the text up to the next
match (the last segment runs to the end). -/
def splitPTAux : List Char → List Char × List (List Char × List Char)
  | 'p' :: 'a' :: 'g' :: 'e' :: '_' :: c :: rest =>
    if c.isDigit then
      let ds := c :: rest.takeWhile Char.isDigit
      let r2 := dropOptNl (rest.dropWhile Char.isDigit)
      let r := splitPTAux r2
      ([], (ds, r.1) :: r.2)
    else
      let r := splitPTAux ('a' :: 'g' :: 'e' :: '_' :: c :: rest)
      ('p' :: r.1, r.2)
  | c :: cs =>
    let r := splitPTAux cs
    (c :: r.1, r.2)
  | [] => ([], [])
termination_by l => l.length
decreasing_by
  · have h1 : (dropOptNl (rest.dropWhile Char.isDigit)).length ≤
        (rest.dropWhile Char.isDigit).length := by
      unfold dropOptNl
      split
      · next heq =>
        rw [heq]
        exact Nat.le_succ _
      · exact Nat.le_refl _
    have h2 := (@List.dropWhile_sublist Char rest Char.isDigit).length_le
    simp_all
    omega
  · simp
  · simp_all

def openTag (ds : List Char) : List Char :=
  "<PAGE ".data ++ ds ++ ['>', '\n']

def closeTagNl (ds : List Char) : List Char :=
  "</PAGE ".data ++ ds ++ ['>', '\n']

def closeTagEnd (ds : List Char) : List Char :=
  "</PAGE ".data ++ ds ++ ['>']

/-- The tag-building loop of `format_page_tags` from the first match on:
open each page, keep the following text verbatim, close it at the next
match (with a newline) or at the end (without). -/
def buildTags : List Char × List Char → List (List Char × List Char) → List Char
  | (d, t), [] => openTag d ++ t ++ closeTagEnd d
  | (d, t), s :: ss => openTag d ++ t ++ closeTagNl d ++ buildTags s ss

/-- `format_page_tags`. -/
def format_page_tags (content : String) : String :=
  if content == "" then content
  else
    let r := splitPTAux content.data
    match r.2 with
    | [] => content
    | s :: ss => String.mk (r.1 ++ buildTags s ss)

/-- Tail match for `re.sub(r'_page_\d+(\.[^.]+)$', r'\1', uri)` in
`AsyncPostRetriever.exec_async`: `_page_`, one or more digits, then the
captured `.extension` running dot-free to the end; on a match, the
replacement is the capture. -/
def fixedTailMatch : List Char → Option (List Char)
  | '_' :: 'p' :: 'a' :: 'g' :: 'e' :: '_' :: rest =>
    let ds := rest.takeWhile Char.isDigit
    if ds.isEmpty then none
    else
      match rest.dropWhile Char.isDigit with
      | '.' :: ext =>
        if !ext.isEmpty && ext.all (fun c => !(c == '.')) then some ('.' :: ext)
        else none
      | _ => none
  | _ => none

/-- Left-to-right scan of the substitution above (the pattern is
end-anchored, so a match ends the string). -/
def subPageSuffixAux : List Char → List Char
  | [] => []
  | c :: cs =>
    match fixedTailMatch (c :: cs) with
    | some repl => repl
    | none => c :: subPageSuffixAux cs

/-- `re.sub(r'_page_\d+(\.[^.]+)$', r'\1', uri)` (the post-retrieval URI
rewrite). -/
def pySubPageFixed (s : String) : String :=
  String.mk (subPageSuffixAux s.data)

/-- `re.sub(r'_page_\\d+', '', uri)` as written in
`aggregate_to_documents`: inside a raw string `\\d+` is a literal
backslash followed by one or more literal `d` characters, so the pattern
matches `_page_\d`, `_page_\dd`, … and not `_page_<digits>`. -/
def subPageBrokenAux : List Char → List Char
  | '_' :: 'p' :: 'a' :: 'g' :: 'e' :: '_' :: '\\' :: 'd' :: rest =>
    subPageBrokenAux (rest.dropWhile (fun c => c == 'd'))
  | c :: cs => c :: subPageBrokenAux cs
  | [] => []
termination_by l => l.length
decreasing_by
  · have := (@List.dropWhile_sublist Char rest (fun c => c == 'd')).length_le
    simp_all
    omega
  · simp_all

def pySubPageBroken (s : String) : String :=
  String.mk (subPageBrokenAux s.data)

/-- `next((re.sub(...) for c in chunks if c.metadata.gcs_uri), None)`
without the substitution: the first truthy `gcs_uri`. -/
def firstTruthyGcs : List SearchResult → Option String
  | [] => none
  | c :: cs =>
    if truthyOptStr c.metadata.gcs_uri then c.metadata.gcs_uri
    else firstTruthyGcs cs

/-- First-occurrence deduplication (iteration order of a `defaultdict`'s
keys). -/
def dedupFirst : List String → List String
  | [] => []
  | x :: xs => x :: (dedupFirst xs).filter (fun y => !(y == x))

/-- The grouping of `aggregate_to_documents`: chunks bucketed by
`metadata.pdf_name`, groups in first-occurrence order, members in input
order. -/
def groupByPdfName (chunks : List SearchResult) : List (String × List SearchResult) :=
  (dedupFirst (chunks.map (fun c => c.metadata.pdf_name))).map
    (fun k => (k, chunks.filter (fun c => c.metadata.pdf_name == k)))

/-- `aggregate_to_documents`; the backend fetch of the full markdown
(`get_full_content`) is abstracted as the oracle `fetch`. -/
def aggregate_to_documents (fetch : String → String → Option String)
    (chunks : List SearchResult) : List DocumentCandidate :=
  (groupByPdfName chunks).map (fun g =>
    { document_id := g.1
      chunks := g.2
      full_content := fetch g.1 (match g.2 with | [] => "" | c :: _ => c.source_index)
      pdf_gcs_uri := (firstTruthyGcs g.2).map pySubPageBroken })

/-- `AsyncPostRetriever.exec_async`: on a falsy input, an empty list; the
`try` block runs `extract_context_delta` (any exception, e.g. the
zero-weight `ZeroDivisionError`, is caught and yields an empty list),
then drops every extracted context whose `pdf_gcs_uri` is falsy and
rewrites the kept ones (page tags in the context, `_page_<n>` suffix out
of the URI).  `postFormat` is the per-context body of that loop. -/
def postFormat (doc : DocumentContext) : Option DocumentContext :=
  match doc.pdf_gcs_uri with
  | none => none
  | some u =>
    if u == "" then none
    else
      some { document_id := doc.document_id
             context := format_page_tags doc.context
             source_index := doc.source_index
             pdf_gcs_uri := some (pySubPageFixed u) }

def AsyncPostRetriever.exec_async (documents : List DocumentCandidate) : List DocumentContext :=
  if documents.isEmpty then []
  else
    match extract_context_delta documents 125000 25 with
    | Except.error _ => []
    | Except.ok extracted => extracted.filterMap postFormat

/-- `TemporalStrategy`. -/
inductive TemporalStrategy where
  | disabled
  | interaction
  | weighted
  | strict
deriving DecidableEq

/-- `RRFConfig` with the source defaults; the compiled
`year_pattern = r'\b(19|20)\d{2}\b'` is embedded as the scanners
`yearFullmatch` / `yearFindall` below. -/
structure RRFConfig where
  k : ℚ := 60
  agreement_boost : ℚ := 3 / 10
  query_overlap_weight : ℚ := 1 / 5
  min_overlap_threshold : ℚ := 3 / 10
  fuzzy_threshold : ℚ := 85
  min_token_coverage : ℚ := 1 / 2
  temporal_weight : ℚ := 3 / 20
  temporal_strategy : TemporalStrategy := TemporalStrategy.interaction
deriving DecidableEq

/-- Length of a longest common subsequence (for the InDel distance
underlying `rapidfuzz.fuzz.ratio`). -/
def lcsLen : List Char → List Char → Nat
  | [], _ => 0
  | _ :: _, [] => 0
  | a :: xs, b :: ys =>
    if a = b then 1 + lcsLen xs ys
    else Nat.max (lcsLen xs (b :: ys)) (lcsLen (a :: xs) ys)
termination_by x y => x.length + y.length
decreasing_by
  all_goals simp only [List.length_cons]
  all_goals omega

/-- InDel (insertion/deletion) edit distance. -/
def indelDist (x y : List Char) : Nat :=
  x.length + y.length - 2 * lcsLen x y

/-- `rapidfuzz.fuzz.ratio`: normalized InDel similarity scaled to
`[0, 100]`; two empty strings score `100`. -/
def fuzzRatio (s1 s2 : String) : ℚ :=
  if s1.length + s2.length = 0 then 100
  else (1 - (indelDist s1.data s2.data : ℚ) / ((s1.length : ℚ) + (s2.length : ℚ))) * 100

/-- `RRFScorer._keyword_match_score`: single-token keywords match
all-or-nothing against the whole (already lower-cased) keyword;
multi-token keywords score their fuzzy token coverage, zeroed below
`min_token_coverage`. -/
def RRFScorer.keyword_match_score (cfg : RRFConfig) (keyword : String)
    (doc_words : List String) : ℚ :=
  match pySplit keyword with
  | [] => 0
  | [_] =>
    if doc_words.any (fun w => cfg.fuzzy_threshold ≤ fuzzRatio keyword w) then 1 else 0
  | tokens =>
    let matched := (tokens.filter
      (fun t => doc_words.any (fun w => cfg.fuzzy_threshold ≤ fuzzRatio t w))).length
    let coverage : ℚ := (matched : ℚ) / (tokens.length : ℚ)
    if cfg.min_token_coverage ≤ coverage then coverage else 0

/-- `re.fullmatch(r'\b(19|20)\d{2}\b', s)` as a Boolean: the word
boundaries are vacuous on a full match, so this is exactly "four
characters, `19` or `20`, then two digits". -/
def yearFullmatch (s : String) : Bool :=
  match s.data with
  | [c1, c2, c3, c4] =>
    ((c1 == '1' && c2 == '9') || (c1 == '2' && c2 == '0')) && c3.isDigit && c4.isDigit
  | _ => false

/-- Python `\w` (ASCII part). -/
def isWordChar (c : Char) : Bool :=
  c.isAlphanum || c == '_'

/-- `re.findall(r'\b(19|20)\d{2}\b', text)`: left-to-right scan; with a
capture group in the pattern, `findall` returns the captured century
(`"19"` or `"20"`), not the matched year.  `prev` is the character
before the scan position, for the `\b` test. -/
def yearFindallAux : Option Char → List Char → List String
  | prev, c1 :: c2 :: c3 :: c4 :: rest =>
    if (match prev with | none => true | some p => !isWordChar p) &&
       ((c1 == '1' && c2 == '9') || (c1 == '2' && c2 == '0')) &&
       c3.isDigit && c4.isDigit &&
       (match rest with | [] => true | r :: _ => !isWordChar r) then
      (if c1 == '1' then "19" else "20") :: yearFindallAux (some c4) rest
    else yearFindallAux (some c1) (c2 :: c3 :: c4 :: rest)
  | _, c :: cs => yearFindallAux (some c) cs
  | _, [] => []

def yearFindall (s : String) : List String :=
  yearFindallAux none s.data

/-- `RRFScorer._split_temporal_keywords`: keywords fully matching the
year pattern after `strip()` are temporal; the rest (by list
membership) are non-temporal. -/
def RRFScorer.split_temporal_keywords (keywords : List String) :
    List String × List String :=
  let temporal := keywords.filter (fun kw => yearFullmatch (pyStrip kw))
  (temporal, keywords.filter (fun kw => !temporal.contains kw))

/-- `RRFScorer._apply_temporal_strategy`. -/
def RRFScorer.apply_temporal_strategy (cfg : RRFConfig)
    (non_temporal_kws doc_words : List String) : ℚ :=
  let scores := non_temporal_kws.map
    (fun kw => RRFScorer.keyword_match_score cfg (pyLower kw) doc_words)
  match cfg.temporal_strategy with
  | TemporalStrategy.interaction => scores.sum / (scores.length : ℚ) * cfg.temporal_weight
  | TemporalStrategy.weighted =>
    if scores.any (fun s => decide (0 < s)) then cfg.temporal_weight else 0
  | TemporalStrategy.strict =>
    if scores.all (fun s => decide (1 / 2 ≤ s)) then cfg.temporal_weight else 0
  | TemporalStrategy.disabled => 0

/-- `RRFScorer._temporal_bonus`. -/
def RRFScorer.temporal_bonus (cfg : RRFConfig) (doc_text : String)
    (doc_words keywords : List String) : ℚ :=
  if keywords.isEmpty then 0
  else if (RRFScorer.split_temporal_keywords keywords).1.isEmpty then 0
  else if cfg.temporal_strategy = TemporalStrategy.disabled then 0
  else if (RRFScorer.split_temporal_keywords keywords).2.isEmpty then 0
  else if (RRFScorer.split_temporal_keywords keywords).1.any
      (fun year => (yearFindall doc_text).contains year) then
    RRFScorer.apply_temporal_strategy cfg
      (RRFScorer.split_temporal_keywords keywords).2 doc_words
  else 0

/-- Stable descending insertion by `score` (Python
`sorted(key=score, reverse=True)`). -/
def insertDescByScore (c : SearchResult) : List SearchResult → List SearchResult
  | [] => [c]
  | x :: xs => if x.score < c.score then c :: x :: xs else x :: insertDescByScore c xs

def sortByScoreDesc (l : List SearchResult) : List SearchResult :=
  l.foldr insertDescByScore []

/-- The inner loop of `_base_rrf`: `1/(k + rank)` summed along a list,
ranks counted from `rank` upward. -/
def rrfRankSum (k : ℚ) : Nat → List SearchResult → ℚ
  | _, [] => 0
  | rank, _ :: cs => 1 / (k + (rank : ℚ)) + rrfRankSum k (rank + 1) cs

/-- `RRFScorer._base_rrf`: partition chunks by `search_type` (first-
occurrence order), sort each partition by score descending, add
`1/(k + rank)` at each 1-indexed rank, and sum over partitions. -/
def RRFScorer.base_rrf (cfg : RRFConfig) (doc : DocumentCandidate) : ℚ :=
  if doc.chunks.isEmpty then 0
  else
    ((dedupFirst (doc.chunks.map (fun c => c.search_type))).map
      (fun t => rrfRankSum cfg.k 1
        (sortByScoreDesc (doc.chunks.filter (fun c => c.search_type == t))))).sum

/-- `SearchConfig` with source defaults. -/
structure SearchConfig where
  indices : List String
  max_concurrent : Nat := 6
  results_per_index : Nat := 50
  min_score : ℚ := 1 / 10
deriving DecidableEq

/-- Descriptor of one fan-out search task (`_search_task` call): its
target index, `search_type` tag and page size.  The query payload is
backend-facing and folded into the backend oracle. -/
structure SearchTask where
  index : String
  search_type : String
  size : Nat
deriving DecidableEq

/-- The task list built by `search_multi_index`: one lexical task per
index when `keywords` is non-empty, then one vector task per
index × vector field (`semantic_<field>`), in that order. -/
def searchTasks (keywords : List String) (vectors : List (String × List ℚ))
    (config : SearchConfig) : List SearchTask :=
  (if !keywords.isEmpty then
    config.indices.map (fun idx =>
      { index := idx, search_type := "lexical", size := config.results_per_index })
  else []) ++
  (config.indices.map (fun idx =>
    vectors.map (fun fv =>
      { index := idx, search_type := "semantic_" ++ fv.1,
        size := config.results_per_index }))).flatten

/-- `search_multi_index` with the backend abstracted: each task yields
either its hits or an exception; `asyncio.gather(...,
return_exceptions=True)` keeps task order, and the comprehension keeps
exactly the hits of non-exception results, concatenated in task order.
The function itself never raises. -/
def search_multi_index (backend : SearchTask → Except String (List SearchResult))
    (keywords : List String) (vectors : List (String × List ℚ))
    (config : SearchConfig) : List SearchResult :=
  ((searchTasks keywords vectors config).map backend).foldr
    (fun r acc =>
      match r with
      | Except.ok hits => hits ++ acc
      | Except.error _ => acc) []

/-- The vectors mapping `{"vector_field": vector}` that
`RetriveNode.exec_async` always passes to `search_multi_index`. -/
def RetriveNode.vectors (vector : List ℚ) : List (String × List ℚ) :=
  [("vector_field", vector)]

/-- The closed form of one partition's RRF contribution:
`Σ_{r=1}^{n} 1/(k+r)` (written over `Finset.range n`). -/
def rrfSpecSum (k : ℚ) (n : Nat) : ℚ :=
  ∑ r ∈ Finset.range n, 1 / (k + (r : ℚ) + 1)

/-- Modelled from the spec: "Extract years from the candidate's text via
the same regex" — the years themselves, i.e. the full 4-character
matches of `\b(19|20)\d{2}\b`, which is what the claim's intended
`doc_years` is. -/
def specYearFindallAux : Option Char → List Char → List String
  | prev, c1 :: c2 :: c3 :: c4 :: rest =>
    if (match prev with | none => true | some p => !isWordChar p) &&
       ((c1 == '1' && c2 == '9') || (c1 == '2' && c2 == '0')) &&
       c3.isDigit && c4.isDigit &&
       (match rest with | [] => true | r :: _ => !isWordChar r) then
      String.mk [c1, c2, c3, c4] :: specYearFindallAux (some c4) rest
    else specYearFindallAux (some c1) (c2 :: c3 :: c4 :: rest)
  | _, c :: cs => specYearFindallAux (some c) cs
  | _, [] => []

def specYearFindall (s : String) : List String :=
  specYearFindallAux none s.data

/-- Modelled from the spec: the intended temporal bonus — identical to
`_temporal_bonus` except that the years extracted from the text are the
full matched years, so a temporal keyword occurring in the text is
found. -/
def specTemporalBonus (cfg : RRFConfig) (doc_text : String)
    (doc_words keywords : List String) : ℚ :=
  if keywords.isEmpty then 0
  else if (RRFScorer.split_temporal_keywords keywords).1.isEmpty then 0
  else if cfg.temporal_strategy = TemporalStrategy.disabled then 0
  else if (RRFScorer.split_temporal_keywords keywords).2.isEmpty then 0
  else if (RRFScorer.split_temporal_keywords keywords).1.any
      (fun year => (specYearFindall doc_text).contains year) then
    RRFScorer.apply_temporal_strategy cfg
      (RRFScorer.split_temporal_keywords keywords).2 doc_words
  else 0

/-- Fixture: a hit whose `gcs_uri` carries a `_page_12` suffix. -/
def metaX : ChunkMetadata :=
  { pdf_name := "x", gcs_uri := some "x_page_12.pdf" }

def chunkX : SearchResult :=
  { content := "c", metadata := metaX, source_index := "i1" }

/-- Fixture backend: the task against `i1` raises, the one against `i2`
succeeds with one hit. -/
def hitW : SearchResult :=
  { content := "h", source_index := "i2", search_type := "lexical" }

def backendW : SearchTask → Except String (List SearchResult) :=
  fun t => if t.index == "i1" then Except.error "503" else Except.ok [hitW]

/-- Fixture for the raw-chunk fallback: the first hit alone exceeds a
zero budget, the second fits. -/
def chunkF1 : SearchResult := { content := "aaaa" }

def chunkF2 : SearchResult := { content := "x" }

def candF : DocumentCandidate :=
  { document_id := "f", chunks := [chunkF1, chunkF2], full_content := some "xxxx" }

/-- Fixtures: a healthy candidate (one non-empty hit, full content and a
URI), a hit-less candidate, and a candidate whose single hit has empty
content. -/
def chunkA : SearchResult := { content := "hello", source_index := "i1" }

def candA : DocumentCandidate :=
  { document_id := "a", chunks := [chunkA], full_content := some "hello world",
    pdf_gcs_uri := some "gs://x/a.pdf" }

def candB : DocumentCandidate :=
  { document_id := "b", pdf_gcs_uri := some "gs://x/b.pdf" }

def chunkD : SearchResult := { content := "", source_index := "idx" }

def candD : DocumentCandidate :=
  { document_id := "d", chunks := [chunkD], full_content := some "xxxx",
    pdf_gcs_uri := some "u.pdf" }

/-- Fixture: a candidate with no hits at all. -/
def candZ : DocumentCandidate := { document_id := "z" }

/-- Fixture: two short hits whose individual estimates are `0` but whose
`"\n\n"`-join has estimate `2`. -/
def chunkE : SearchResult := { content := "ab" }

def candE : DocumentCandidate :=
  { document_id := "e", chunks := [chunkE, chunkE], full_content := some "xxxx" }

/-- Token sum of the contexts an extraction returned (`0` on error). -/
def contextTokensSum (r : Except String (List DocumentContext)) : Nat :=
  match r with
  | Except.ok l => (l.map (fun d => estimate_tokens d.context)).sum
  | Except.error _ => 0

/-- Fixtures for C9: the configuration `RetriveNode.exec_async` builds
(one index, page size 100) and an all-failing backend (an empty
`query_vector` makes the store reject the query). -/
def cfgW : SearchConfig := { indices := ["idx"], results_per_index := 100 }

def backendFail : SearchTask → Except String (List SearchResult) :=
  fun _ => Except.error "400"

/-- The rank-indexed loop sum only depends on the list's length. -/
theorem rrfRankSumEq (k : ℚ) (l : List SearchResult) :
    ∀ r0 : Nat, rrfRankSum k (r0 + 1) l =
      ∑ i ∈ Finset.range l.length, 1 / (k + (r0 : ℚ) + (i : ℚ) + 1) := by
  induction l with
  | nil => intro r0; simp [rrfRankSum]
  | cons c cs ih =>
    intro r0
    rw [rrfRankSum, ih (r0 + 1), List.length_cons, Finset.sum_range_succ']
    push_cast
    ring_nf
    congr 1
    apply Finset.sum_congr rfl
    intro i _
    rw [one_div]
    ring_nf

theorem insertDescLen (c : SearchResult) (l : List SearchResult) :
    (insertDescByScore c l).length = l.length + 1 := by
  induction l with
  | nil => simp [insertDescByScore]
  | cons x xs ih =>
    rw [insertDescByScore]
    split
    · simp
    · simp [ih]

theorem sortByScoreDescLen (l : List SearchResult) :
    (sortByScoreDesc l).length = l.length := by
  induction l with
  | nil => rfl
  | cons x xs ih =>
    show (insertDescByScore x (sortByScoreDesc xs)).length = xs.length + 1
    rw [insertDescLen, ih]

theorem baseRrfEmpty (cfg : RRFConfig) (doc : DocumentCandidate) (h : doc.chunks = []) :
    RRFScorer.base_rrf cfg doc = 0 := by
  rw [RRFScorer.base_rrf, h]
  simp

/-- C7: the base RRF score is the sum, over the partitions of a
candidate's hits by `search_type` (in first-occurrence order), of
`Σ_{r=1..n_t} 1/(k+r)` where `n_t` is the partition's size — the
score-descending sort inside a partition does not change the summed
rank terms — and it is `0` for a candidate with no hits. -/
theorem C7_base_rrf_partition_sum (cfg : RRFConfig) (doc : DocumentCandidate) :
    RRFScorer.base_rrf cfg doc =
      ((dedupFirst (doc.chunks.map (fun c => c.search_type))).map
        (fun t => rrfSpecSum cfg.k
          ((doc.chunks.filter (fun c => c.search_type == t)).length))).sum ∧
    (doc.chunks = [] → RRFScorer.base_rrf cfg doc = 0) := by
  constructor
  · by_cases h : doc.chunks.isEmpty
    · rw [List.isEmpty_iff] at h
      rw [baseRrfEmpty cfg doc h, h]
      simp [dedupFirst]
    · rw [RRFScorer.base_rrf, if_neg h]
      congr 1
      apply List.map_congr_left
      intro t _
      have he := rrfRankSumEq cfg.k
        (sortByScoreDesc (doc.chunks.filter (fun c => c.search_type == t))) 0
      norm_num at he
      rw [he, sortByScoreDescLen, rrfSpecSum]
      simp [one_div]
  · exact baseRrfEmpty cfg doc

/-- Every string returned by the year-pattern `findall` is a century
capture, `"19"` or `"20"` — never a full year. -/
theorem yearFindallAuxMem (prev : Option Char) (l : List Char) :
    ∀ s ∈ yearFindallAux prev l, s = "19" ∨ s = "20" := by
  induction prev, l using yearFindallAux.induct with
  | case1 prev c1 c2 c3 c4 rest hcond ih =>
    intro s hs
    simp only [yearFindallAux, if_pos hcond] at hs
    rcases List.mem_cons.mp hs with h | h
    · subst h
      split
      · left; rfl
      · right; rfl
    · exact ih s h
  | case2 prev c1 c2 c3 c4 rest hcond ih =>
    intro s hs
    simp only [yearFindallAux, if_neg hcond] at hs
    exact ih s hs
  | case3 x c cs hshort ih =>
    intro s hs
    simp only [yearFindallAux] at hs
    exact ih s hs
  | case4 x =>
    intro s hs
    simp only [yearFindallAux] at hs
    simp at hs

/-- A keyword that fully matches the year pattern (after `strip`) is a
four-character year, hence never equal to a century capture. -/
theorem temporalKwNotCentury (y : String) (h : yearFullmatch (pyStrip y) = true) :
    y ≠ "19" ∧ y ≠ "20" := by
  constructor
  · intro hy
    rw [hy] at h
    exact absurd h (by decide)
  · intro hy
    rw [hy] at h
    exact absurd h (by decide)

/-- `_temporal_bonus` returns `0` on every input: temporal keywords are
4-character years, while `doc_years` only ever contains the 2-character
century captures, so `has_temporal_match` is always false. -/
theorem temporalBonusZero (cfg : RRFConfig) (doc_text : String)
    (doc_words keywords : List String) :
    RRFScorer.temporal_bonus cfg doc_text doc_words keywords = 0 := by
  rw [RRFScorer.temporal_bonus]
  split
  · rfl
  · split
    · rfl
    · split
      · rfl
      · split
        · rfl
        · split
          · next hany =>
              exfalso
              obtain ⟨y, hy, hcont⟩ := List.any_eq_true.mp hany
              have hfull : yearFullmatch (pyStrip y) = true := by
                simpa using (List.mem_filter.mp hy).2
              have hmem : y ∈ yearFindall doc_text := by
                simpa using hcont
              have hcen := yearFindallAuxMem none doc_text.data y hmem
              have hne := temporalKwNotCentury y hfull
              tauto
          · rfl

/-- C2: the temporal bonus of `RRFScorer._temporal_bonus` is `0` on
every input — `re.findall` with the capture group in
`\b(19|20)\d{2}\b` returns only the century (`"19"`/`"20"`), never the
full year, so no 4-digit temporal keyword is ever found in `doc_years`.
In particular on keywords `["climate", "2021"]` against the text
`"climate 2021"` the code yields `0`, where the spec's intended
computation (full years extracted from the text) yields
`avg(s_i) × temporal_weight = 1 × 0.15`. -/
theorem C2_temporal_bonus_always_zero :
    (∀ (cfg : RRFConfig) (doc_text : String) (doc_words keywords : List String),
      RRFScorer.temporal_bonus cfg doc_text doc_words keywords = 0) ∧
    RRFScorer.temporal_bonus {} "climate 2021" (pySplit "climate 2021")
      ["climate", "2021"] = 0 ∧
    specTemporalBonus {} "climate 2021" (pySplit "climate 2021")
      ["climate", "2021"] = 3 / 20 := by
  refine ⟨temporalBonusZero, temporalBonusZero _ _ _ _, ?_⟩
  with_unfolding_all rfl

/-- C3: the candidate built by `aggregate_to_documents` does NOT strip
the `_page_12` suffix — the raw string `r'_page_\\d+'` matches a literal
backslash, so the substitution leaves `x_page_12.pdf` unchanged; the
claimed stripping (`x_page_12.pdf → x.pdf`) only happens later, in the
post-retrieval rewrite of `AsyncPostRetriever.exec_async`. -/
theorem C3_pdf_gcs_uri_not_stripped_at_aggregation :
    (aggregate_to_documents (fun _ _ => none) [chunkX]).map
      (fun d => d.pdf_gcs_uri) = [some "x_page_12.pdf"] ∧
    pySubPageBroken "x_page_12.pdf" = "x_page_12.pdf" ∧
    pySubPageFixed "x_page_12.pdf" = "x.pdf" ∧
    pySubPageFixed "x.pdf" = "x.pdf" := by
  refine ⟨?_, ?_, ?_, ?_⟩ <;> with_unfolding_all rfl

/-- The gather loop keeps exactly the hits of the successful results, in
order. -/
theorem gatherOk (rs : List (Except String (List SearchResult))) :
    rs.foldr
      (fun r acc =>
        match r with
        | Except.ok hits => hits ++ acc
        | Except.error _ => acc) [] =
      (rs.filterMap Except.toOption).flatten := by
  induction rs with
  | nil => rfl
  | cons r rest ih =>
    cases r with
    | ok hits => simp [List.filterMap_cons, ih, Except.toOption]
    | error e => simp [List.filterMap_cons, ih, Except.toOption]

/-- C8: `search_multi_index` never raises (it is a total function of the
per-task outcomes) and returns exactly the concatenation of the hit
lists of the successfully completed tasks, in task order; hence the hits
of any successful task appear in the output whatever the other tasks
did. -/
theorem C8_failed_tasks_dropped
    (backend : SearchTask → Except String (List SearchResult))
    (keywords : List String) (vectors : List (String × List ℚ))
    (config : SearchConfig) :
    search_multi_index backend keywords vectors config =
      ((searchTasks keywords vectors config).filterMap
        (fun t => (backend t).toOption)).flatten ∧
    ∀ t hits, t ∈ searchTasks keywords vectors config →
      backend t = Except.ok hits →
      hits.Sublist (search_multi_index backend keywords vectors config) := by
  have hfold : search_multi_index backend keywords vectors config =
      ((searchTasks keywords vectors config).filterMap
        (fun t => (backend t).toOption)).flatten := by
    rw [search_multi_index, gatherOk, List.filterMap_map]
    rfl
  refine ⟨hfold, ?_⟩
  intro t hits ht hb
  rw [hfold]
  apply List.sublist_flatten_of_mem
  exact List.mem_filterMap.mpr ⟨t, ht, by rw [hb]; rfl⟩

theorem C8_witness :
    [hitW].Sublist
      (search_multi_index backendW ["kw"] [] { indices := ["i1", "i2"] }) ∧
    search_multi_index backendW ["kw"] [] { indices := ["i1", "i2"] } = [hitW] := by
  constructor
  · exact (C8_failed_tasks_dropped backendW ["kw"] [] { indices := ["i1", "i2"] }).2
      { index := "i2", search_type := "lexical", size := 50 } [hitW]
      (by with_unfolding_all decide) (by with_unfolding_all rfl)
  · with_unfolding_all rfl

theorem emptyContextFields (c : DocumentCandidate) :
    (emptyContext c).document_id = c.document_id ∧
    (emptyContext c).context = "" ∧
    (emptyContext c).pdf_gcs_uri = none :=
  ⟨rfl, rfl, rfl⟩

/-- Every branch of the raw-chunk loop keeps the candidate's id, and its
result is either the empty context or an accepted context carrying the
candidate's `pdf_gcs_uri` and a join of greedily selected contents. -/
theorem rawChunksLoopCases (c : DocumentCandidate) (si : String) (b : Nat) :
    ∀ L : List Nat, rawChunksLoop c si b L = (emptyContext c, 0, Sum.inr "-0") ∨
      ∃ limit ∈ L, (greedyChunks b (c.chunks.take limit) 0).1 ≠ [] ∧
        rawChunksLoop c si b L =
          ({ document_id := c.document_id
             context := pyJoin "\n\n" (greedyChunks b (c.chunks.take limit) 0).1
             source_index := si
             pdf_gcs_uri := c.pdf_gcs_uri },
           (greedyChunks b (c.chunks.take limit) 0).2,
           Sum.inr ("-" ++ toString (greedyChunks b (c.chunks.take limit) 0).1.length)) := by
  intro L
  induction L with
  | nil => left; rfl
  | cons limit rest ih =>
    rw [rawChunksLoop]
    split
    · next hempty =>
      rcases ih with h | ⟨lim, hlim, hne, heq⟩
      · left
        exact h
      · right
        exact ⟨lim, List.mem_cons_of_mem _ hlim, hne, heq⟩
    · next hne =>
      right
      refine ⟨limit, List.mem_cons_self _ _, ?_, rfl⟩
      simpa [List.isEmpty_iff] using hne

/-- A padding accepted by the padding loop yields a context whose token
estimate is positive and within budget, carrying the candidate's id and
`pdf_gcs_uri`. -/
theorem tryPaddingsCases (c : DocumentCandidate) (si : String) (b : Nat)
    (pn av : List Nat) :
    ∀ (L : List Nat) (r : DocumentContext × Nat × PadInfo),
      tryPaddings c si b pn av L = some r →
      r.1.document_id = c.document_id ∧ r.1.pdf_gcs_uri = c.pdf_gcs_uri ∧
      r.2.1 = estimate_tokens r.1.context ∧
      0 < estimate_tokens r.1.context ∧ estimate_tokens r.1.context ≤ b := by
  intro L
  induction L with
  | nil => intro r h; exact absurd h (by simp [tryPaddings])
  | cons p rest ih =>
    intro r h
    rw [tryPaddings] at h
    split at h
    · next hcond =>
      obtain ⟨h1, h2⟩ := by simpa using hcond
      cases h
      exact ⟨rfl, rfl, rfl, h1, h2⟩
    · exact ih r h

/-- The greedy loop's reported token total stays within budget whenever
it starts within budget. -/
theorem greedyTokensLe (b : Nat) :
    ∀ (l : List SearchResult) (t : Nat), t ≤ b → (greedyChunks b l t).2 ≤ b := by
  intro l
  induction l with
  | nil => intro t ht; simpa [greedyChunks] using ht
  | cons ch rest ih =>
    intro t ht
    rw [greedyChunks]
    split
    · next hfit => exact ih _ hfit
    · exact ih t ht

/-- Every text selected by the greedy loop is the content of one of the
scanned chunks. -/
theorem greedyMemContents (b : Nat) :
    ∀ (l : List SearchResult) (t : Nat) (s : String),
      s ∈ (greedyChunks b l t).1 → s ∈ l.map (fun ch => ch.content) := by
  intro l
  induction l with
  | nil => intro t s h; simp [greedyChunks] at h
  | cons ch rest ih =>
    intro t s h
    rw [greedyChunks] at h
    split at h
    · rcases List.mem_cons.mp h with h1 | h1
      · simp [h1]
      · simp only [List.map_cons, List.mem_cons]
        right
        exact ih _ s h1
    · simp only [List.map_cons, List.mem_cons]
      right
      exact ih t s h

/-- The greedy selection is an order-preserving subsequence of the
scanned contents. -/
theorem greedySublist (b : Nat) :
    ∀ (l : List SearchResult) (t : Nat),
      ((greedyChunks b l t).1).Sublist (l.map (fun ch => ch.content)) := by
  intro l
  induction l with
  | nil => intro t; simp [greedyChunks]
  | cons ch rest ih =>
    intro t
    rw [greedyChunks]
    split
    · exact (ih _).cons₂ ch.content
    · exact (ih t).cons ch.content

/-- If the greedy loop selects nothing, every scanned chunk individually
exceeds the remaining budget. -/
theorem greedyNilForall (b : Nat) :
    ∀ (l : List SearchResult) (t : Nat), (greedyChunks b l t).1 = [] →
      ∀ ch ∈ l, b < t + estimate_tokens ch.content := by
  intro l
  induction l with
  | nil => intro t _ ch hch; simp at hch
  | cons c0 rest ih =>
    intro t hnil ch hch
    rw [greedyChunks] at hnil
    split at hnil
    · exact absurd hnil (by simp)
    · next hnofit =>
      rcases List.mem_cons.mp hch with h1 | h1
      · subst h1; omega
      · exact ih t hnil ch h1

/-- Conversely, if every scanned chunk exceeds the budget on its own,
the greedy loop selects nothing. -/
theorem greedyForallNil (b : Nat) :
    ∀ (l : List SearchResult) (t : Nat),
      (∀ ch ∈ l, b < t + estimate_tokens ch.content) → (greedyChunks b l t).1 = [] := by
  intro l
  induction l with
  | nil => intro t _; rfl
  | cons c0 rest ih =>
    intro t h
    rw [greedyChunks]
    split
    · next hfit => exact absurd hfit (by have := h c0 (by simp); omega)
    · exact ih t (fun ch hch => h ch (List.mem_cons_of_mem _ hch))

/-- C5 (amended): the raw-chunk fallback's result is decided entirely by
the greedy scan over the full hit list (the ratio loop never changes
it): either no single hit fits the budget and the context is empty, or
the context is the `"\n\n"`-join of the greedily selected contents — an
order-preserving subsequence, not necessarily a prefix, of the hit
contents (a non-fitting hit is skipped, not a stopping point). -/
theorem C5_raw_fallback_greedy_subsequence (cand : DocumentCandidate) (si : String) (b : Nat) :
    ((extractRawChunks cand si b).1.context = "" ∧ (greedyChunks b cand.chunks 0).1 = []) ∨
    ((extractRawChunks cand si b).1.context = pyJoin "\n\n" (greedyChunks b cand.chunks 0).1 ∧
     (greedyChunks b cand.chunks 0).1 ≠ [] ∧
     ((greedyChunks b cand.chunks 0).1).Sublist (cand.chunks.map (fun ch => ch.content))) := by
  have h10 : cand.chunks.length * 10 / 10 = cand.chunks.length :=
    Nat.mul_div_cancel cand.chunks.length (by norm_num)
  have hfirst : cand.chunks.take (Nat.max 1 (cand.chunks.length * 10 / 10)) = cand.chunks := by
    apply List.take_of_length_le
    rw [h10]
    exact Nat.le_max_right 1 _
  by_cases hg : (greedyChunks b cand.chunks 0).1 = []
  · left
    refine ⟨?_, hg⟩
    have hall := greedyNilForall b cand.chunks 0 hg
    have hloop : ∀ L, (rawChunksLoop cand si b L).1.context = "" := by
      intro L
      induction L with
      | nil => rfl
      | cons limit rest ih =>
        rw [rawChunksLoop]
        split
        · exact ih
        · next hne =>
          exfalso
          have hnil : (greedyChunks b (cand.chunks.take limit) 0).1 = [] :=
            greedyForallNil b _ 0
              (fun ch hch => hall ch (List.take_subset limit cand.chunks hch))
          simp [hnil] at hne
    exact hloop _
  · right
    rw [extractRawChunks, ratioLimits]
    simp only [List.map_cons]
    rw [rawChunksLoop, hfirst]
    split
    · next hemp =>
      rw [List.isEmpty_iff] at hemp
      exact absurd hemp hg
    · exact ⟨rfl, hg, greedySublist b cand.chunks 0⟩

/-- C5 counterexample: with budget `0`, the fallback skips the first hit
(`"aaaa"`, estimate 1) and still appends the second (`"x"`, estimate 0),
returning `"x"` — which is not the join of any prefix of the hit
contents, refuting the claim's "prefix of the first n hits". -/
theorem C5_counterexample_not_a_prefix :
    (extractRawChunks candF "idx" 0).1.context = "x" ∧
    ¬ ∃ n : Nat, (extractRawChunks candF "idx" 0).1.context =
        pyJoin "\n\n" ((candF.chunks.map (fun ch => ch.content)).take n) := by
  have hctx : (extractRawChunks candF "idx" 0).1.context = "x" := by
    with_unfolding_all rfl
  have hm : candF.chunks.map (fun ch => ch.content) = ["aaaa", "x"] := by
    with_unfolding_all rfl
  refine ⟨hctx, ?_⟩
  rintro ⟨n, hn⟩
  rw [hctx, hm] at hn
  match n, hn with
  | 0, hn => exact absurd hn (by decide)
  | 1, hn => exact absurd hn (by decide)
  | n + 2, hn =>
    rw [List.take_of_length_le (by simp)] at hn
    exact absurd hn (by decide)

theorem strLenPos (s : String) (h : s ≠ "") : 0 < s.length := by
  cases s with
  | mk data =>
    cases data with
    | nil => exact absurd rfl h
    | cons c cs => simp

theorem strNeEmptyOfLen (s : String) (h : s.length ≠ 0) : s ≠ "" := by
  intro he
  subst he
  exact h rfl

/-- A join whose first part is non-empty is non-empty. -/
theorem pyJoinNeEmpty (sep x : String) (xs : List String) (hx : x ≠ "") :
    pyJoin sep (x :: xs) ≠ "" := by
  cases xs with
  | nil => exact hx
  | cons y ys =>
    apply strNeEmptyOfLen
    rw [pyJoin, String.length_append, String.length_append]
    have := strLenPos x hx
    omega

theorem posTokensNeEmpty (s : String) (h : 0 < estimate_tokens s) : s ≠ "" := by
  intro he
  subst he
  exact absurd h (by decide)

/-- The raw-chunk loop's reported token count stays within budget. -/
theorem rawChunksLoopUsedLe (c : DocumentCandidate) (si : String) (b : Nat) :
    ∀ L : List Nat, (rawChunksLoop c si b L).2.1 ≤ b := by
  intro L
  induction L with
  | nil => exact Nat.zero_le b
  | cons limit rest ih =>
    rw [rawChunksLoop]
    split
    · exact ih
    · exact greedyTokensLe b _ 0 (Nat.zero_le b)

theorem fullOrEmptyUsedLe (c : DocumentCandidate) (si : String) (b : Nat) :
    (fullOrEmpty c si b).2.1 ≤ b := by
  rw [fullOrEmpty]
  split
  · next h => exact h
  · exact rawChunksLoopUsedLe c si b _

/-- The extractor never reports more tokens than the budget. -/
theorem extractWithBudgetUsedLe (c : DocumentCandidate) (b ip : Nat) :
    (extractWithBudget c b ip).2.1 ≤ b := by
  rw [extractWithBudget]
  split
  · exact Nat.zero_le b
  · split
    · exact Nat.zero_le b
    · split
      · exact fullOrEmptyUsedLe c _ b
      · split
        · exact fullOrEmptyUsedLe c _ b
        · split
          · next r heq =>
            have := tryPaddingsCases c _ b _ _ _ r heq
            simp only [this.2.2.1]
            exact this.2.2.2.2
          · exact rawChunksLoopUsedLe c _ b _

/-- Branch analysis of `_extract_with_budget`: the result is the empty
context, or it keeps the candidate's id and `pdf_gcs_uri` with (when no
hit content is empty) a non-empty context. -/
theorem extractWithBudgetCases (c : DocumentCandidate) (b ip : Nat)
    (hne : ∀ ch ∈ c.chunks, ch.content ≠ "") :
    (extractWithBudget c b ip).1 = emptyContext c ∨
    ((extractWithBudget c b ip).1.document_id = c.document_id ∧
     (extractWithBudget c b ip).1.pdf_gcs_uri = c.pdf_gcs_uri ∧
     (extractWithBudget c b ip).1.context ≠ "") := by
  have hraw : ∀ si, (extractRawChunks c si b).1 = emptyContext c ∨
      ((extractRawChunks c si b).1.document_id = c.document_id ∧
       (extractRawChunks c si b).1.pdf_gcs_uri = c.pdf_gcs_uri ∧
       (extractRawChunks c si b).1.context ≠ "") := by
    intro si
    rcases rawChunksLoopCases c si b (ratioLimits c.chunks.length) with h | ⟨lim, _, hg, heq⟩
    · left
      rw [extractRawChunks, h]
    · right
      rw [extractRawChunks, heq]
      refine ⟨rfl, rfl, ?_⟩
      cases hsel : (greedyChunks b (c.chunks.take lim) 0).1 with
      | nil => exact absurd hsel hg
      | cons x xs =>
        simp only [hsel]
        apply pyJoinNeEmpty
        have hx : x ∈ (c.chunks.take lim).map (fun ch => ch.content) := by
          apply greedyMemContents b _ 0
          rw [hsel]
          exact List.mem_cons_self x xs
        obtain ⟨ch, hch, hcx⟩ := List.mem_map.mp hx
        rw [← hcx]
        exact hne ch (List.take_subset lim c.chunks hch)
  have hfull : ∀ si, truthyOptStr c.full_content = true →
      (fullOrEmpty c si b).1 = emptyContext c ∨
      ((fullOrEmpty c si b).1.document_id = c.document_id ∧
       (fullOrEmpty c si b).1.pdf_gcs_uri = c.pdf_gcs_uri ∧
       (fullOrEmpty c si b).1.context ≠ "") := by
    intro si hfc
    rw [fullOrEmpty]
    split
    · right
      refine ⟨rfl, rfl, ?_⟩
      cases hc : c.full_content with
      | none => rw [hc] at hfc; exact absurd hfc (by decide)
      | some s =>
        rw [hc] at hfc
        simp only [truthyOptStr, Bool.not_eq_true', beq_eq_false_iff_ne] at hfc
        simpa [hc] using hfc
    · exact hraw si
  rw [extractWithBudget]
  split
  · left; rfl
  · split
    · left; rfl
    · next hns =>
      have hfc : truthyOptStr c.full_content = true := by
        simpa using hns
      split
      · exact hfull _ hfc
      · split
        · exact hfull _ hfc
        · split
          · next r heq =>
            have hcase := tryPaddingsCases c _ b _ _ _ r heq
            exact Or.inr ⟨hcase.1, hcase.2.1, posTokensNeEmpty _ hcase.2.2.2.1⟩
          · exact hraw _

theorem rawChunksLoopId (c : DocumentCandidate) (si : String) (b : Nat) (L : List Nat) :
    ((rawChunksLoop c si b L).1).document_id = c.document_id := by
  rcases rawChunksLoopCases c si b L with h | ⟨lim, _, _, heq⟩
  · rw [h]
    rfl
  · rw [heq]

theorem fullOrEmptyId (c : DocumentCandidate) (si : String) (b : Nat) :
    ((fullOrEmpty c si b).1).document_id = c.document_id := by
  rw [fullOrEmpty]
  split
  · rfl
  · exact rawChunksLoopId c si b _

/-- Every branch of the extractor emits a context carrying the
candidate's `document_id`. -/
theorem extractWithBudgetId (c : DocumentCandidate) (b ip : Nat) :
    ((extractWithBudget c b ip).1).document_id = c.document_id := by
  rw [extractWithBudget]
  split
  · rfl
  · split
    · rfl
    · split
      · exact fullOrEmptyId c _ b
      · split
        · exact fullOrEmptyId c _ b
        · split
          · next r heq => exact (tryPaddingsCases c _ b _ _ _ r heq).1
          · exact rawChunksLoopId c _ b _

/-- C10 (amended): when every hit content is non-empty, an extracted
empty context can only be the `_empty_context` result, whose
`pdf_gcs_uri` is `None`; and a non-empty extracted context always
carries the candidate's `pdf_gcs_uri` unchanged. -/
theorem C10_empty_context_has_no_uri (c : DocumentCandidate) (b ip : Nat)
    (hne : ∀ ch ∈ c.chunks, ch.content ≠ "") :
    ((extractWithBudget c b ip).1.context = "" →
      (extractWithBudget c b ip).1.pdf_gcs_uri = none) ∧
    ((extractWithBudget c b ip).1.context ≠ "" →
      (extractWithBudget c b ip).1.pdf_gcs_uri = c.pdf_gcs_uri) := by
  rcases extractWithBudgetCases c b ip hne with h | ⟨_, huri, hctx⟩
  · constructor
    · intro _
      rw [h]
      rfl
    · intro hc
      rw [h] at hc
      exact absurd rfl hc
  · exact ⟨fun hc => absurd hc hctx, fun _ => huri⟩

theorem C10_witness :
    (extractWithBudget candA 100 25).1.pdf_gcs_uri = candA.pdf_gcs_uri :=
  (C10_empty_context_has_no_uri candA 100 25 (by decide)).2
    (by with_unfolding_all decide)

/-- C10 counterexample: the raw-chunk fallback accepts the empty content
of `candD`'s only hit (estimate 0 fits budget 0), emitting an empty
context that still carries the candidate's `pdf_gcs_uri` — refuting the
claim that an empty context always has `pdf_gcs_uri = None`. -/
theorem C10_counterexample_empty_context_keeps_uri :
    (extractWithBudget candD 0 25).1.context = "" ∧
    (extractWithBudget candD 0 25).1.pdf_gcs_uri = some "u.pdf" ∧
    candD.pdf_gcs_uri = some "u.pdf" := by
  refine ⟨?_, ?_, rfl⟩ <;> with_unfolding_all rfl

/-- A candidate with no hits or falsy full content takes the
empty-context branch. -/
theorem extractWithBudgetEmptyInput (c : DocumentCandidate) (b ip : Nat)
    (h : c.chunks = [] ∨ truthyOptStr c.full_content = false) :
    (extractWithBudget c b ip).1 = emptyContext c := by
  rw [extractWithBudget]
  split
  · rfl
  · next c0 rest heq =>
    rcases h with h | h
    · rw [h] at heq
      exact absurd heq (by simp)
    · rw [h]
      rfl

/-- With a positive total weight, `extract_context_delta` returns
normally with the per-candidate extraction results in order. -/
theorem extractOkOfWeight (cands : List DocumentCandidate) (mt ip : Nat)
    (hw : totalWeight cands ≠ 0) :
    extract_context_delta cands mt ip = Except.ok (cands.map (fun c =>
      (extractWithBudget c (c.chunk_count * mt / totalWeight cands) ip).1)) := by
  rw [extract_context_delta]
  rw [if_neg hw]

/-- C6 (amended): provided some candidate has at least one hit (total
weight non-zero), extraction returns normally and every candidate with
no hits or no full content gets the empty context (with no
`pdf_gcs_uri`) at its own position.  With a non-empty list of zero-hit
candidates the Python division `weight / total_weight` raises
`ZeroDivisionError` instead (see the counterexample), which only the
post-retrieval caller catches. -/
theorem C6_empty_candidates_yield_empty_context (cands : List DocumentCandidate)
    (mt ip i : Nat) (hi : i < cands.length) (hw : totalWeight cands ≠ 0)
    (hc : (cands.get ⟨i, hi⟩).chunks = [] ∨
      truthyOptStr (cands.get ⟨i, hi⟩).full_content = false) :
    ∃ l, extract_context_delta cands mt ip = Except.ok l ∧
      ∃ hl : i < l.length, (l.get ⟨i, hl⟩).context = "" ∧
        (l.get ⟨i, hl⟩).pdf_gcs_uri = none := by
  refine ⟨_, extractOkOfWeight cands mt ip hw, ?_⟩
  have hl : i < (cands.map (fun c =>
      (extractWithBudget c (c.chunk_count * mt / totalWeight cands) ip).1)).length := by
    simpa using hi
  refine ⟨hl, ?_⟩
  have hget : (cands.map (fun c =>
      (extractWithBudget c (c.chunk_count * mt / totalWeight cands) ip).1)).get ⟨i, hl⟩ =
      (extractWithBudget (cands.get ⟨i, hi⟩)
        ((cands.get ⟨i, hi⟩).chunk_count * mt / totalWeight cands) ip).1 := by
    simp
  rw [hget, extractWithBudgetEmptyInput _ _ _ hc]
  exact ⟨rfl, rfl⟩

theorem C6_witness :
    (1 < [candA, candB].length) ∧ (totalWeight [candA, candB] ≠ 0) ∧
    ∃ l, extract_context_delta [candA, candB] 100 25 = Except.ok l ∧
      ∃ hl : 1 < l.length, (l.get ⟨1, hl⟩).context = "" ∧
        (l.get ⟨1, hl⟩).pdf_gcs_uri = none := by
  refine ⟨by decide, by decide, ?_⟩
  exact C6_empty_candidates_yield_empty_context [candA, candB] 100 25 1
    (by decide) (by decide) (Or.inl (by decide))

/-- C6 counterexample: on a non-empty list whose candidates all have
zero hits, `extract_context_delta` raises `ZeroDivisionError`
(`weight / total_weight` with `total_weight = 0`), refuting "extraction
never raises". -/
theorem C6_counterexample_zero_weight_raises :
    extract_context_delta [candZ] 125000 25 =
      Except.error "ZeroDivisionError: division by zero" := by
  with_unfolding_all rfl

/-- The post-retrieval rewrite keeps the document id of every context it
does not drop. -/
theorem postFormatId (d b : DocumentContext) (h : postFormat d = some b) :
    b.document_id = d.document_id := by
  rw [postFormat] at h
  split at h
  · exact absurd h (by simp)
  · split at h
    · exact absurd h (by simp)
    · cases h
      rfl

/-- Mapping a value-preserved field over a `filterMap` yields an
order-preserving subsequence of the field over the original list. -/
theorem filterMapMapSublist {α β : Type} (f : α → Option β)
    (gb : β → String) (ga : α → String)
    (h : ∀ a b, f a = some b → gb b = ga a) :
    ∀ l : List α, ((l.filterMap f).map gb).Sublist (l.map ga) := by
  intro l
  induction l with
  | nil => simp
  | cons a rest ih =>
    cases hf : f a with
    | none =>
      rw [List.filterMap_cons_none hf, List.map_cons]
      exact ih.cons (ga a)
    | some b =>
      rw [List.filterMap_cons_some hf, List.map_cons, List.map_cons, h a b hf]
      exact ih.cons₂ (ga a)

/-- With a positive total weight, `exec_async` is the post-formatting
filter over the extracted contexts. -/
theorem execAsyncEq (cands : List DocumentCandidate) (hw : totalWeight cands ≠ 0) :
    AsyncPostRetriever.exec_async cands =
      (cands.map (fun c =>
        (extractWithBudget c (c.chunk_count * 125000 / totalWeight cands) 25).1)).filterMap
        postFormat := by
  rw [AsyncPostRetriever.exec_async, extractOkOfWeight cands 125000 25 hw]
  have hne : cands.isEmpty = false := by
    cases cands
    · exact absurd rfl hw
    · rfl
  rw [hne]
  rfl

/-- C1 (amended): with a positive total weight, `extract_context_delta`
emits exactly one `DocumentContext` per candidate, in input order, each
carrying its candidate's `document_id`; the post-retrieval formatting of
`AsyncPostRetriever.exec_async` then drops every context whose
`pdf_gcs_uri` is missing, so its output ids form an order-preserving
subsequence of the candidates' ids (not one per candidate). -/
theorem C1_one_context_per_candidate (cands : List DocumentCandidate)
    (mt ip : Nat) (hw : totalWeight cands ≠ 0) :
    ∃ l, extract_context_delta cands mt ip = Except.ok l ∧
      l.map (fun d => d.document_id) = cands.map (fun c => c.document_id) ∧
      ((AsyncPostRetriever.exec_async cands).map (fun d => d.document_id)).Sublist
        (cands.map (fun c => c.document_id)) := by
  have hids : ∀ mt2 ip2 : Nat, (cands.map (fun c =>
      (extractWithBudget c (c.chunk_count * mt2 / totalWeight cands) ip2).1)).map
        (fun d => d.document_id) = cands.map (fun c => c.document_id) := by
    intro mt2 ip2
    rw [List.map_map]
    apply List.map_congr_left
    intro c _
    exact extractWithBudgetId c _ ip2
  refine ⟨_, extractOkOfWeight cands mt ip hw, hids mt ip, ?_⟩
  rw [execAsyncEq cands hw, ← hids 125000 25]
  exact filterMapMapSublist postFormat (fun d => d.document_id)
    (fun d => d.document_id) postFormatId
    (cands.map (fun c =>
      (extractWithBudget c (c.chunk_count * 125000 / totalWeight cands) 25).1))

theorem C1_witness :
    totalWeight [candA] ≠ 0 ∧
    ∃ l, extract_context_delta [candA] 100 25 = Except.ok l ∧
      l.map (fun d => d.document_id) = [candA].map (fun c => c.document_id) ∧
      ((AsyncPostRetriever.exec_async [candA]).map (fun d => d.document_id)).Sublist
        ([candA].map (fun c => c.document_id)) :=
  ⟨by decide, C1_one_context_per_candidate [candA] 100 25 (by decide)⟩

/-- C1 counterexample: candidate `b` has no hits, so its extracted
context has no `pdf_gcs_uri` and the post-retrieval formatting drops it
— `exec_async` returns one context for two candidates, refuting "exactly
one `DocumentContext` per input candidate". -/
theorem C1_counterexample_context_dropped :
    (AsyncPostRetriever.exec_async [candA, candB]).length = 1 ∧
    [candA, candB].length = 2 ∧
    (AsyncPostRetriever.exec_async [candA, candB]).length ≠ [candA, candB].length := by
  have h1 : (AsyncPostRetriever.exec_async [candA, candB]).length = 1 := by
    with_unfolding_all rfl
  refine ⟨h1, rfl, ?_⟩
  rw [h1]
  decide

theorem divAddLe (a b c : Nat) : a / c + b / c ≤ (a + b) / c := by
  rcases Nat.eq_zero_or_pos c with hc | hc
  · subst hc
    simp
  · rw [Nat.le_div_iff_mul_le hc, Nat.add_mul]
    exact Nat.add_le_add (Nat.div_mul_le_self a c) (Nat.div_mul_le_self b c)

theorem sumMapDivLe (l : List Nat) (c : Nat) : (l.map (· / c)).sum ≤ l.sum / c := by
  induction l with
  | nil => simp
  | cons x xs ih =>
    rw [List.map_cons, List.sum_cons, List.sum_cons]
    exact Nat.le_trans (Nat.add_le_add_left ih _) (divAddLe x xs.sum c)

/-- The floored proportional budgets sum to at most `max_tokens`. -/
theorem budgetsSumLe (cands : List DocumentCandidate) (mt : Nat)
    (hw : totalWeight cands ≠ 0) :
    (cands.map (fun c => c.chunk_count * mt / totalWeight cands)).sum ≤ mt := by
  have h1 : cands.map (fun c => c.chunk_count * mt / totalWeight cands) =
      (cands.map (fun c => c.chunk_count * mt)).map (· / totalWeight cands) := by
    rw [List.map_map]
    rfl
  have h2 : (cands.map (fun c => c.chunk_count * mt)).sum = totalWeight cands * mt := by
    rw [totalWeight, ← List.sum_map_mul_right]
  rw [h1]
  refine Nat.le_trans (sumMapDivLe _ _) ?_
  rw [h2, Nat.mul_comm, Nat.mul_div_cancel mt (Nat.pos_of_ne_zero hw)]

/-- C4 (amended): the sum over candidates of the extractor's reported
token usage — the whole-context estimate in the page and full-content
tiers, the sum of the accepted per-chunk estimates in the raw-chunk
fallback — never exceeds `max_tokens`.  (The sum of
`estimate_tokens(context_i)` over the actual contexts can exceed
`max_tokens + |docs|`: see the counterexample.) -/
theorem C4_reported_tokens_within_budget (cands : List DocumentCandidate)
    (mt ip : Nat) (hw : totalWeight cands ≠ 0) :
    (cands.map (fun c =>
      (extractWithBudget c (c.chunk_count * mt / totalWeight cands) ip).2.1)).sum ≤ mt := by
  refine Nat.le_trans (List.sum_le_sum ?_) (budgetsSumLe cands mt hw)
  intro c _
  exact extractWithBudgetUsedLe c _ ip

theorem C4_witness :
    totalWeight [candA, candB] ≠ 0 ∧
    ([candA, candB].map (fun c =>
      (extractWithBudget c
        (c.chunk_count * 100 / totalWeight [candA, candB]) 25).2.1)).sum ≤ 100 :=
  ⟨by decide, C4_reported_tokens_within_budget [candA, candB] 100 25 (by decide)⟩

/-- C4 counterexample: one candidate with two hits and `max_tokens = 0`.
Both hit estimates are `0`, so the raw-chunk fallback accepts both; the
returned context `"ab\n\nab"` has estimate `2`, exceeding
`max_tokens + |docs| × 1 = 1` — the claimed bound fails because joining
accepted chunks with `"\n\n"` is not accounted against the budget. -/
theorem C4_counterexample_join_exceeds_budget :
    totalWeight [candE] = 2 ∧
    contextTokensSum (extract_context_delta [candE] 0 25) = 2 ∧
    ¬ contextTokensSum (extract_context_delta [candE] 0 25) ≤ 0 + [candE].length * 1 := by
  have h2 : contextTokensSum (extract_context_delta [candE] 0 25) = 2 := by
    with_unfolding_all rfl
  refine ⟨by decide, h2, ?_⟩
  rw [h2]
  decide

/-- C9 (amended): no search task is generated — and so no search reaches
the backend — only when both `keywords` and the vectors mapping are
empty, and then the hit list is `[]`.  But `RetriveNode.exec_async`
always passes the one-entry mapping `{"vector_field": vector}`, so with
empty keywords and an empty vector one vector-search task per index is
still issued; the retrieval returns `[]` only because those searches
fail or return nothing. -/
theorem C9_empty_inputs (config : SearchConfig) (vec : List ℚ)
    (backend : SearchTask → Except String (List SearchResult))
    (hidx : config.indices ≠ []) :
    searchTasks [] [] config = [] ∧
    search_multi_index backend [] [] config = [] ∧
    searchTasks [] (RetriveNode.vectors vec) config ≠ [] ∧
    ((∀ t, (backend t).toOption = none) →
      search_multi_index backend [] (RetriveNode.vectors vec) config = []) := by
  have hA : searchTasks [] [] config = [] := by
    simp [searchTasks]
  refine ⟨hA, ?_, ?_, ?_⟩
  · rw [search_multi_index, hA]
    rfl
  · cases hi : config.indices with
    | nil => exact absurd hi hidx
    | cons i rest => simp [searchTasks, RetriveNode.vectors, hi]
  · intro hfail
    rw [search_multi_index, gatherOk, List.filterMap_map]
    have hnil : (searchTasks [] (RetriveNode.vectors vec) config).filterMap
        (Except.toOption ∘ backend) = [] := by
      apply List.filterMap_eq_nil_iff.mpr
      intro t _
      exact hfail t
    rw [hnil]
    rfl

theorem C9_witness :
    cfgW.indices ≠ [] ∧
    searchTasks [] (RetriveNode.vectors []) cfgW ≠ [] ∧
    search_multi_index backendFail [] (RetriveNode.vectors []) cfgW = [] := by
  refine ⟨by decide, (C9_empty_inputs cfgW [] backendFail (by decide)).2.2.1, ?_⟩
  exact (C9_empty_inputs cfgW [] backendFail (by decide)).2.2.2 (fun t => rfl)

/-- C9 counterexample: with empty keywords and an empty vector, the
vectors mapping `{"vector_field": []}` still has one entry, so one
vector-search task per index is generated — a call does reach the search
store, refuting "performs no call". -/
theorem C9_counterexample_vector_task_issued :
    searchTasks [] (RetriveNode.vectors []) cfgW =
      [{ index := "idx", search_type := "semantic_vector_field", size := 100 }] := by
  with_unfolding_all rfl

theorem C7_witness : RRFScorer.base_rrf {} candZ = 0 :=
  (C7_base_rrf_partition_sum {} candZ).2 rfl
